import Mathlib

/-!
Shallow embedding of the budget-constrained slot-allocation and
product-selection engine of `design_agent/services.py`
(class `DesignAIService`).

Modelling conventions:
* Python floats and Decimal prices are modelled as rationals; the
  monetary rounding `round(x, 2)` is modelled by `round2` below
  (round-half landing is irrelevant for every concrete input used here,
  all of which sit away from half-cent boundaries).
* Python dictionaries keyed by slot name are modelled as lists in
  insertion order (dict iteration order is insertion order; slot names
  are unique because `generate_design_recommendation` builds
  `product_slots_dict` keyed by name).
* A Python `ZeroDivisionError` escaping the allocation loop is modelled
  by `Option`: `none` means the run aborts with an error result.
* Django queryset category-regex filtering is treated as part of the
  external catalog collaborator: the `catalog` argument of
  `recommendProductsForSlot` stands for the sequence of products of the
  matching category, in database iteration order; the availability,
  price, style and room-type filters of `_recommend_products_for_slot`
  (services.py lines 736-778) are modelled explicitly.
* Narrative reasoning strings are carried but abbreviated; the source
  spec declares them not load-bearing beyond existence.
-/

namespace DesignAI

/-- Monetary rounding to 2 decimal places, `round(x, 2)` in the source. -/
def round2 (x : ℚ) : ℚ := (round (x * 100) : ℤ) / 100

/-- Catalog product, from `products/models.py` class `Product`.
The model declares no `rating` field; `rating` is carried as an
`Option` because `_ai_select_best_product` probes it with `hasattr`
(for actual `Product` instances it is always `none`). -/
structure Product where
  name : String
  category : String
  style : String
  material : String
  room_type : String
  price : ℚ
  is_available : Bool
  rating : Option ℚ
  deriving DecidableEq, Repr

/-- User preferences as read by the service: `preferences.get('style')`,
`preferences.get('room_type')`.  A preferred material string may be
present in the session preferences dict but is never read by the
scorer. -/
structure Preferences where
  style : Option String
  room_type : Option String
  material : Option String
  deriving DecidableEq, Repr

/-- One slot entry of a template's `product_slots` list
(`_initialize_templates`).  Fields are optional because the source
reads them with `dict.get` and a default. -/
structure SlotInfo where
  name : String
  category : Option String
  required : Option Bool
  quantity : Option ℕ
  budget_percentage : Option ℚ
  deriving DecidableEq, Repr

/-- `slot_info.get('budget_percentage', 10)`. -/
def slotPct (s : SlotInfo) : ℚ := s.budget_percentage.getD 10

/-- `slot_info.get('quantity', 1)`. -/
def slotQty (s : SlotInfo) : ℕ := s.quantity.getD 1

/-- In-memory `ProductRecommendation` (design_agent/models.py), as
mutated inside a single `_generate_optimized_products` run. -/
structure Selection where
  product : Option Product
  quantity : ℕ
  slot_name : String
  reasoning : String
  unit_price : ℚ
  total_price : ℚ
  deriving DecidableEq, Repr

/-- Sum of `total_price` over selections: the material cost of a run
(`generate_design_recommendation` line 222). -/
def matCost (sels : List Selection) : ℚ := (sels.map Selection.total_price).sum

/-- `material_budget = total_budget * 0.85` (services.py line 188). -/
def materialBudget (totalBudget : ℚ) : ℚ := totalBudget * (85/100)

/-- `labor_cost = total_budget * 0.15` (services.py line 189). -/
def laborCost (totalBudget : ℚ) : ℚ := totalBudget * (15/100)

/-- `total_percentage = sum(slot_info.get('budget_percentage', 10) ...)`
(services.py line 258). -/
def totalPercentage (slots : List SlotInfo) : ℚ := (slots.map slotPct).sum

/-- Slot budget allocation, services.py lines 257-266.  When the
percentages do not sum to 100 each slot budget is
`material_budget * (pct / total)`; dividing by a zero total raises
`ZeroDivisionError` in Python, modelled as `none` (only reachable when
at least one slot exists, since with no slots the loop body never
runs). -/
def slotBudgets (slots : List SlotInfo) (mb : ℚ) :
    Option (List (String × ℚ)) :=
  if totalPercentage slots ≠ 100 then
    if slots = [] then some []
    else if totalPercentage slots = 0 then none
    else some (slots.map fun s => (s.name, mb * (slotPct s / totalPercentage slots)))
  else
    some (slots.map fun s => (s.name, mb * slotPct s / 100))

/-- The `product_slots` of the seeded template named Modern Kitchen
(services.py lines 48-54). -/
def modernKitchenSlots : List SlotInfo :=
  [ ⟨"kitchen_cabinet", some "Storage", some true, some 1, some 40⟩,
    ⟨"kitchen_island", some "Storage", some false, some 1, some 25⟩,
    ⟨"bar_stools", some "Seating", some false, some 3, some 15⟩,
    ⟨"pendant_lights", some "Lighting", some true, some 3, some 12⟩,
    ⟨"kitchen_appliances", some "Appliances", some true, some 1, some 8⟩ ]

/-- The `product_slots` of the seeded template named Traditional Kitchen
(services.py lines 63-68). -/
def traditionalKitchenSlots : List SlotInfo :=
  [ ⟨"wooden_cabinets", some "Storage", some true, some 1, some 45⟩,
    ⟨"dining_table", some "Tables", some false, some 1, some 20⟩,
    ⟨"dining_chairs", some "Seating", some false, some 4, some 15⟩,
    ⟨"chandelier", some "Lighting", some true, some 1, some 12⟩,
    ⟨"kitchen_appliances", some "Appliances", some true, some 1, some 8⟩ ]

/-! ## Product scoring (`_ai_select_best_product`, services.py 899-941) -/

/-- Price-utilization contribution of the scoring loop
(services.py lines 918-925).  `ratio` is `price / max_unit_price`
when the latter is positive, else 0. -/
def priceScore (price maxUnit : ℚ) : ℚ :=
  let ratio := if maxUnit > 0 then price / maxUnit else 0
  if (7/10) ≤ ratio ∧ ratio ≤ (6/5) then 5
  else if (1/2) ≤ ratio ∧ ratio ≤ (7/10) then 3
  else if ratio > (6/5) then 2
  else 0

/-- Quality contribution (services.py lines 931-933):
`if hasattr(product, 'rating') and product.rating: score += min(rating, 3)`.
A missing attribute or a zero (falsy) rating contributes nothing. -/
def ratingScore (r : Option ℚ) : ℚ :=
  match r with
  | none => 0
  | some v => if v = 0 then 0 else min v 3

/-- Total score of one candidate in `_ai_select_best_product`
(services.py lines 907-935).  `max_unit_price = slot_budget / quantity`
(line 905). -/
def score (prefs : Preferences) (slot : SlotInfo) (slotBudget : ℚ)
    (p : Product) : ℚ :=
  let maxUnit := slotBudget / (slotQty slot : ℚ)
  (if prefs.style = some p.style then 5 else 0)
  + (if prefs.room_type = some p.room_type then 3 else 0)
  + priceScore p.price maxUnit
  + (if p.is_available then 2 else 0)
  + ratingScore p.rating

/-- First element of maximal second component.  Python sorts the scored
list with `sort(key=..., reverse=True)`; `list.sort` is stable, so
`scored_products[0]` is the earliest candidate attaining the maximal
score, which is what this function returns. -/
def bestScored : List (Product × ℚ) → Option (Product × ℚ)
  | [] => none
  | x :: xs =>
    match bestScored xs with
    | none => some x
    | some y => some (if y.2 > x.2 then y else x)

/-- `_ai_select_best_product` (services.py lines 899-941): a singleton
candidate set is returned unscored; otherwise the first ten candidates
are scored and the best is returned; the trailing
`return products.first()` is the fallback for an empty scored list. -/
def aiSelectBestProduct (products : List Product) (slot : SlotInfo)
    (prefs : Preferences) (slotBudget : ℚ) : Option Product :=
  if products.length = 1 then products.head?
  else
    let scored := (products.take 10).map fun p => (p, score prefs slot slotBudget p)
    match bestScored scored with
    | some best => some best.1
    | none => products.head?

/-! ## Catalog recommendation (`_recommend_products_for_slot`,
services.py 733-798) -/

/-- Conditional preference filter (services.py lines 773-778): keep
only the products whose field equals the preferred value, but only when
at least one current product matches via `exists`; a missing
preference filters nothing. -/
def condFilter (l : List Product) (field : Product → String)
    (preferred : Option String) : List Product :=
  match preferred with
  | some v => if l.any (fun q => field q = v)
              then l.filter (fun q => field q = v) else l
  | none => l

/-- Filter chain and selection of `_recommend_products_for_slot`.
`catalogForCategory` is the category-matching catalog sequence (the
regex filters of lines 739-767 applied by the database); the modelled
filters are `is_available=True` (line 736), the budget filter
`price <= max_unit_price * 1.5` (lines 769-771), and the conditional
style and room-type filters (lines 773-778).  Returns the selected
product, or `none` when no candidate survives the filters. -/
def recommendProductsForSlot (catalogForCategory : List Product)
    (slot : SlotInfo) (prefs : Preferences) (slotBudget : ℚ) :
    Option Product :=
  let ps0 := catalogForCategory.filter (fun p => p.is_available)
  let maxUnit := slotBudget / (slotQty slot : ℚ)
  let ps1 := ps0.filter (fun p => p.price ≤ maxUnit * (3/2))
  let ps2 := condFilter ps1 Product.style prefs.style
  let ps3 := condFilter ps2 Product.room_type prefs.room_type
  if ps3 ≠ [] then aiSelectBestProduct ps3 slot prefs slotBudget
  else none

/-! ## Fallback synthesis (`_create_budget_maximizing_product`,
services.py 342-489) -/

/-- The static `premium_products` table (services.py lines 346-455):
slot name to display name, base price and scaling factor. -/
def premiumProducts : List (String × String × ℚ × ℚ) :=
  [ ("kitchen_cabinet", ("Premium Modular Kitchen Cabinet System", 2000, 3/2)),
    ("modular_cabinets", ("Custom Modular Kitchen Cabinets", 2000, 3/2)),
    ("kitchen_island", ("Designer Kitchen Island with Storage", 1500, 9/5)),
    ("bar_stools", ("Premium Bar Stool", 300, 2)),
    ("pendant_lights", ("Designer Pendant Light Fixture", 250, 5/2)),
    ("kitchen_appliances", ("Premium Kitchen Appliance Package", 1200, 9/5)),
    ("hob", ("Premium Gas Hob with Auto-Ignition", 500, 2)),
    ("sink", ("Premium Stainless Steel Kitchen Sink", 400, 5/2)),
    ("chimney", ("High-Performance Kitchen Chimney", 600, 2)),
    ("lighting", ("LED Kitchen Lighting System", 400, 9/5)),
    ("countertop", ("Premium Granite/Quartz Countertop", 800, 11/5)),
    ("vanity_cabinet", ("Premium Bathroom Vanity with Sink", 1000, 9/5)),
    ("double_vanity", ("Luxury Double Sink Vanity Unit", 2000, 8/5)),
    ("mirror", ("Smart LED Bathroom Mirror", 400, 2)),
    ("luxury_mirror", ("Premium Smart Mirror with Touch Controls", 800, 9/5)),
    ("shower_fixtures", ("Premium Shower System with Fixtures", 800, 2)),
    ("premium_fixtures", ("Luxury Rain Shower System", 1500, 9/5)),
    ("bathroom_lighting", ("Premium LED Bathroom Lighting", 200, 5/2)),
    ("luxury_lighting", ("Designer Bathroom Light Collection", 400, 2)),
    ("storage_shelves", ("Premium Bathroom Storage System", 300, 9/5)),
    ("towel_warmer", ("Electric Heated Towel Warmer Rack", 400, 2)) ]

/-- `_create_budget_maximizing_product` (services.py lines 342-489),
yielding the synthesized `ProductRecommendation` fields for one slot.
Targets 92 percent of the slot budget; a known slot name is priced from
the premium table (clamped to base*scaling above, floored at 0.7*base
below); an unknown name takes the target price directly.  The stored
`unit_price` is `round(unit_price, 2)` and the stored `total_price` is
`round(unit_price * quantity, 2)` of the UNROUNDED unit price (lines
481-487).  Display-name title casing is abbreviated. -/
def createBudgetMaximizingProduct (slot : SlotInfo) (slotBudget : ℚ) :
    Selection :=
  let q := slotQty slot
  let targetTotal := slotBudget * (92/100)
  let targetUnit := targetTotal / (q : ℚ)
  let priced : String × ℚ :=
    match premiumProducts.find? (fun e => e.1 = slot.name) with
    | some e =>
      let base := e.2.2.1
      let scaling := e.2.2.2
      if targetUnit > base then (e.2.1, min targetUnit (base * scaling))
      else (e.2.1, max targetUnit (base * (7/10)))
    | none => ("Premium " ++ slot.name, targetUnit)
  let unitPrice := priced.2
  let totalPrice := unitPrice * (q : ℚ)
  { product := none
    quantity := q
    slot_name := slot.name
    reasoning := "Selected " ++ priced.1 ++ " with premium materials and finishes to maximize your investment while ensuring exceptional quality and durability. This selection utilizes your allocated budget effectively for optimal value."
    unit_price := round2 unitPrice
    total_price := round2 totalPrice }

/-! ## First pass (`_generate_optimized_products`, services.py 270-327) -/

/-- Reasoning text attached to a real catalog selection
(`_generate_product_reasoning`, abbreviated: free text, not
load-bearing). -/
def generateProductReasoning (p : Product) : String :=
  "This " ++ p.name ++ " was selected because it fits your design."

/-- Fill one slot (body of the first-pass loop, services.py 271-327):
take the recommended catalog product when one exists and its total
price is at most 1.5 times the slot budget, else synthesize. -/
def fillSlot (catalog : String → List Product) (prefs : Preferences)
    (slot : SlotInfo) (slotBudget : ℚ) : Selection :=
  let q := slotQty slot
  match recommendProductsForSlot (catalog slot.name) slot prefs slotBudget with
  | some p =>
    let unitPrice := p.price
    let totalPrice := unitPrice * (q : ℚ)
    if totalPrice ≤ slotBudget * (3/2) then
      { product := some p
        quantity := q
        slot_name := slot.name
        reasoning := generateProductReasoning p
        unit_price := unitPrice
        total_price := totalPrice }
    else createBudgetMaximizingProduct slot slotBudget
  | none => createBudgetMaximizingProduct slot slotBudget

/-! ## Second pass: reconciliation (services.py 329-338, 491-526) -/

/-- `_redistribute_remaining_budget` (services.py lines 491-510). -/
def redistributeRemainingBudget (sels : List Selection)
    (remaining : ℚ) : List Selection :=
  if sels = [] ∨ remaining ≤ 0 then sels
  else
    let totalCurrent := matCost sels
    sels.map fun s =>
      let proportion := if totalCurrent > 0 then s.total_price / totalCurrent else 0
      let upgrade := remaining * proportion
      let newUnit := s.unit_price + upgrade / (s.quantity : ℚ)
      let newTotal := newUnit * (s.quantity : ℚ)
      { s with
        unit_price := round2 newUnit
        total_price := round2 newTotal
        reasoning := s.reasoning ++ " Enhanced with premium upgrades to fully utilize your budget allocation." }

/-- `_scale_down_to_budget` (services.py lines 512-526). -/
def scaleDownToBudget (sels : List Selection) (targetBudget : ℚ) :
    List Selection :=
  if sels = [] then sels
  else
    let totalCurrent := matCost sels
    let scale := if totalCurrent > 0 then targetBudget / totalCurrent else 1
    sels.map fun s =>
      let newTotal := s.total_price * scale
      let newUnit := newTotal / (s.quantity : ℚ)
      { s with
        unit_price := round2 newUnit
        total_price := round2 newTotal }

/-- The second pass of `_generate_optimized_products`
(services.py lines 329-338): redistribute when more than 5 percent of
the material budget remains, scale down when more than 2 percent over,
otherwise leave the selections unchanged. -/
def reconcile (sels : List Selection) (mb : ℚ) : List Selection :=
  let totalAllocated := matCost sels
  let remaining := mb - totalAllocated
  if remaining > mb * (5/100) then redistributeRemainingBudget sels remaining
  else if totalAllocated > mb * (102/100) then scaleDownToBudget sels mb
  else sels

/-- `_generate_optimized_products` (services.py lines 253-340):
allocate slot budgets, fill every slot (first pass), reconcile against
the material budget (second pass).  Budgets are matched to slots
positionally, which coincides with the dict lookup of the source
because both are keyed by the unique slot names in insertion order. -/
def generateOptimizedProducts (catalog : String → List Product)
    (slots : List SlotInfo) (prefs : Preferences) (mb : ℚ) :
    Option (List Selection) :=
  match slotBudgets slots mb with
  | none => none
  | some budgets =>
    let sels := (slots.zip (budgets.map Prod.snd)).map
      fun sb => fillSlot catalog prefs sb.1 sb.2
    some (reconcile sels mb)

/-! ## Helper lemmas -/

theorem round2_sub_abs (x : ℚ) : |round2 x - x| ≤ 1/200 := by
  have h := abs_sub_round (x * 100)
  rw [round2]
  rw [show (round (x * 100) : ℤ) / (100:ℚ) - x = (x * 100 - round (x * 100)) * (-(1/100)) by ring]
  rw [abs_mul]
  calc |x * 100 - (round (x * 100) : ℤ)| * |(-(1/100) : ℚ)|
      ≤ (1/2) * |(-(1/100) : ℚ)| := by
        apply mul_le_mul_of_nonneg_right h (abs_nonneg _)
    _ ≤ 1/200 := by rw [abs_neg, abs_of_nonneg (by norm_num : (0:ℚ) ≤ 1/100)]; norm_num

theorem list_sum_map_add {α : Type} (l : List α) (f g : α → ℚ) :
    (l.map (fun a => f a + g a)).sum = (l.map f).sum + (l.map g).sum := by
  induction l with
  | nil => simp
  | cons a l ih => simp [ih]; ring

theorem list_sum_map_mul_left {α : Type} (l : List α) (c : ℚ) (f : α → ℚ) :
    (l.map (fun a => c * f a)).sum = c * (l.map f).sum := by
  induction l with
  | nil => simp
  | cons a l ih => simp [ih]; ring

theorem list_sum_abs_le {α : Type} (l : List α) (f g e : α → ℚ)
    (h : ∀ a ∈ l, |f a - g a| ≤ e a) :
    |(l.map f).sum - (l.map g).sum| ≤ (l.map e).sum := by
  induction l with
  | nil => simp
  | cons a l ih =>
    simp only [List.map_cons, List.sum_cons]
    have h1 : |f a - g a| ≤ e a := h a (List.mem_cons_self a l)
    have h2 : |(l.map f).sum - (l.map g).sum| ≤ (l.map e).sum :=
      ih (fun x hx => h x (List.mem_cons_of_mem a hx))
    calc |f a + (l.map f).sum - (g a + (l.map g).sum)|
        = |(f a - g a) + ((l.map f).sum - (l.map g).sum)| := by ring_nf
      _ ≤ |f a - g a| + |(l.map f).sum - (l.map g).sum| := abs_add _ _
      _ ≤ e a + (l.map e).sum := add_le_add h1 h2

/-! ## Claim C3: weight normalization -/

/-- Claim C3: for every set of slots whose budget percentages sum to
P > 0 and every material budget, the allocated per-slot budgets sum to
the material budget exactly (hence within the claimed 0.01 tolerance),
whether or not P equals 100. -/
theorem slotBudgets_sum_eq (slots : List SlotInfo) (mb : ℚ)
    (hP : 0 < totalPercentage slots) :
    ∃ bs, slotBudgets slots mb = some bs ∧ (bs.map Prod.snd).sum = mb := by
  have hP0 : totalPercentage slots ≠ 0 := ne_of_gt hP
  by_cases h100 : totalPercentage slots = 100
  · refine ⟨slots.map fun s => (s.name, mb * slotPct s / 100), ?_, ?_⟩
    · simp [slotBudgets, h100]
    · have h : ((slots.map fun s => (s.name, mb * slotPct s / 100)).map Prod.snd)
          = slots.map fun s => (mb / 100) * slotPct s := by
        simp only [List.map_map]
        exact List.map_congr_left (fun s _ => by simp [Function.comp]; ring)
      rw [h, list_sum_map_mul_left]
      rw [show (slots.map slotPct).sum = totalPercentage slots from rfl, h100]
      ring
  · have hne : slots ≠ [] := by
      intro h
      rw [h] at hP
      simp [totalPercentage] at hP
    refine ⟨slots.map fun s => (s.name, mb * (slotPct s / totalPercentage slots)), ?_, ?_⟩
    · simp [slotBudgets, h100, hne, hP0]
    · have h : ((slots.map fun s =>
            (s.name, mb * (slotPct s / totalPercentage slots))).map Prod.snd)
          = slots.map fun s => (mb / totalPercentage slots) * slotPct s := by
        simp only [List.map_map]
        exact List.map_congr_left (fun s _ => by simp [Function.comp]; ring)
      rw [h, list_sum_map_mul_left]
      rw [show (slots.map slotPct).sum = totalPercentage slots from rfl]
      field_simp

/-- Witness for C3: the Modern Kitchen slot weights sum to a positive
total and the allocated budgets for a 6800 material budget sum to
6800. -/
theorem slotBudgets_sum_eq_witness :
    0 < totalPercentage modernKitchenSlots ∧
    ∃ bs, slotBudgets modernKitchenSlots 6800 = some bs ∧
      (bs.map Prod.snd).sum = 6800 :=
  ⟨by norm_num [totalPercentage, modernKitchenSlots, slotPct],
    slotBudgets_sum_eq modernKitchenSlots 6800
      (by norm_num [totalPercentage, modernKitchenSlots, slotPct])⟩

/-! ## Claim C5: all-zero percentages -/

/-- Counterexample for C5: with a single slot of budget percentage 0
the allocation step does not return a zero budget for the slot; it
aborts (Python raises ZeroDivisionError at
`slot_info.get('budget_percentage', 10) / total_percentage`). -/
theorem slotBudgets_zero_pct_counterexample :
    slotBudgets [⟨"storage_shelves", some "Storage", some false, some 2, some 0⟩] 100
      = none := by
  norm_num [slotBudgets, totalPercentage, slotPct]

/-- Claim C5 as amended: when every slot percentage is 0 and at least
one slot exists, the allocation step raises ZeroDivisionError (modelled
as `none`), so the run fails with an error instead of degenerating to
zero budgets. -/
theorem slotBudgets_zero_pct_fails (slots : List SlotInfo) (mb : ℚ)
    (hne : slots ≠ []) (hz : ∀ s ∈ slots, slotPct s = 0) :
    slotBudgets slots mb = none := by
  have hP : totalPercentage slots = 0 := by
    apply List.sum_eq_zero
    intro x hx
    obtain ⟨s, hs, rfl⟩ := List.mem_map.mp hx
    exact hz s hs
  simp [slotBudgets, hP, hne]

/-- Witness for the amended C5 at a concrete one-slot configuration. -/
theorem slotBudgets_zero_pct_fails_witness :
    (([⟨"storage_shelves", some "Storage", some false, some 2, some 0⟩] : List SlotInfo) ≠ []
      ∧ ∀ s ∈ ([⟨"storage_shelves", some "Storage", some false, some 2, some 0⟩] : List SlotInfo), slotPct s = 0)
    ∧ slotBudgets [⟨"storage_shelves", some "Storage", some false, some 2, some 0⟩] 50 = none :=
  ⟨⟨by simp, by norm_num [slotPct]⟩,
    slotBudgets_zero_pct_fails _ 50 (by simp) (by norm_num [slotPct])⟩

/-! ## Claim C6: Modern Kitchen scenario -/

/-- Claim C6: for total budget 8000 on the Modern Kitchen template the
85/15 split yields material budget 6800 and labor cost 1200, and the
slot budgets are 2720, 1700, 1020, 816 and 544, summing to 6800. -/
theorem modernKitchen_scenario :
    materialBudget 8000 = 6800 ∧ laborCost 8000 = 1200 ∧
    slotBudgets modernKitchenSlots 6800 = some
      [("kitchen_cabinet", 2720), ("kitchen_island", 1700),
       ("bar_stools", 1020), ("pendant_lights", 816),
       ("kitchen_appliances", 544)] ∧
    ((([("kitchen_cabinet", 2720), ("kitchen_island", 1700),
       ("bar_stools", 1020), ("pendant_lights", 816),
       ("kitchen_appliances", 544)] : List (String × ℚ))).map Prod.snd).sum = 6800 := by
  refine ⟨by norm_num [materialBudget], by norm_num [laborCost], ?_, by norm_num⟩
  norm_num [slotBudgets, totalPercentage, modernKitchenSlots, slotPct]

/-! ## Scorer lemmas -/

theorem bestScored_ne_none (l : List (Product × ℚ)) (hne : l ≠ []) :
    bestScored l ≠ none := by
  cases l with
  | nil => exact absurd rfl hne
  | cons x xs =>
    cases h : bestScored xs with
    | none => simp [bestScored, h]
    | some y => simp [bestScored, h]

theorem bestScored_spec (l : List (Product × ℚ)) (x : Product × ℚ)
    (hx : bestScored l = some x) :
    ∃ i, ∃ hi : i < l.length, l.get ⟨i, hi⟩ = x ∧
      (∀ j (hj : j < l.length), (l.get ⟨j, hj⟩).2 ≤ x.2) ∧
      (∀ j (hj : j < l.length), j < i → (l.get ⟨j, hj⟩).2 < x.2) := by
  induction l generalizing x with
  | nil => simp [bestScored] at hx
  | cons hd l ih =>
    cases hl : bestScored l with
    | none =>
      have hlnil : l = [] := by
        by_contra h
        exact bestScored_ne_none l h hl
      subst hlnil
      simp only [bestScored] at hx
      have hxh : x = hd := (Option.some_inj.mp hx).symm
      refine ⟨0, by simp, by simp [hxh], ?_, ?_⟩
      · intro j hj
        have hj0 : j = 0 := by simpa using Nat.lt_one_iff.mp (by simpa using hj)
        subst hj0
        simp [hxh]
      · intro j hj hji
        omega
    | some y =>
      simp only [bestScored, hl] at hx
      obtain ⟨i, hi, hget, hmax, hfirst⟩ := ih y hl
      by_cases hcmp : y.2 > hd.2
      · have hxy : x = y := by
          rw [if_pos hcmp] at hx
          exact (Option.some_inj.mp hx).symm
        refine ⟨i + 1, by simpa using Nat.succ_lt_succ hi, ?_, ?_, ?_⟩
        · rw [hxy]; simpa using hget
        · intro j hj
          rw [hxy]
          cases j with
          | zero => simpa using le_of_lt hcmp
          | succ j => exact hmax j (by simpa using hj)
        · intro j hj hji
          rw [hxy]
          cases j with
          | zero => simpa using hcmp
          | succ j => exact hfirst j (by simpa using hj) (by omega)
      · have hxh : x = hd := by
          rw [if_neg hcmp] at hx
          exact (Option.some_inj.mp hx).symm
        refine ⟨0, by simp, by simp [hxh], ?_, ?_⟩
        · intro j hj
          rw [hxh]
          cases j with
          | zero => simp
          | succ j =>
            have h1 := hmax j (by simpa using hj)
            have hyh : y.2 ≤ hd.2 := le_of_not_lt hcmp
            have h2 : ((hd :: l).get ⟨j + 1, hj⟩) = l.get ⟨j, by simpa using hj⟩ := by simp
            rw [h2]
            exact le_trans h1 hyh
        · intro j hj hji
          omega

theorem bestScored_mem (l : List (Product × ℚ)) (x : Product × ℚ)
    (hx : bestScored l = some x) : x ∈ l := by
  obtain ⟨i, hi, hget, _, _⟩ := bestScored_spec l x hx
  exact hget ▸ l.get_mem i hi

/-- Whatever `_ai_select_best_product` returns is one of its candidate
products. -/
theorem aiSelectBestProduct_mem (ps : List Product) (slot : SlotInfo)
    (prefs : Preferences) (b : ℚ) (p : Product)
    (hp : aiSelectBestProduct ps slot prefs b = some p) : p ∈ ps := by
  by_cases hlen : ps.length = 1
  · simp only [aiSelectBestProduct, hlen, if_pos] at hp
    exact List.mem_of_mem_head? (by simpa using hp)
  · simp only [aiSelectBestProduct, hlen, if_neg, ite_false] at hp
    cases hb : bestScored ((ps.take 10).map fun q => (q, score prefs slot b q)) with
    | none =>
      rw [hb] at hp
      exact List.mem_of_mem_head? (by simpa using hp)
    | some best =>
      rw [hb] at hp
      simp only [Option.some_inj] at hp
      have hmem := bestScored_mem _ _ hb
      obtain ⟨q, hq, hqe⟩ := List.mem_map.mp hmem
      have : q = p := by rw [← hp, ← hqe]
      subst this
      exact List.mem_of_mem_take hq

/-! ## Claim C10: truncation to the first ten candidates -/

/-- Claim C10: with more than one candidate, the selected product is
always among the first ten candidates in iteration order; a candidate
at position eleven or later is never returned. -/
theorem aiSelectBestProduct_within_first_ten (ps : List Product)
    (slot : SlotInfo) (prefs : Preferences) (b : ℚ) (p : Product)
    (hlen : 1 < ps.length)
    (hp : aiSelectBestProduct ps slot prefs b = some p) :
    p ∈ ps.take 10 := by
  have hlen1 : ps.length ≠ 1 := by omega
  simp only [aiSelectBestProduct, hlen1, ite_false] at hp
  cases hb : bestScored ((ps.take 10).map fun q => (q, score prefs slot b q)) with
  | none =>
    exfalso
    apply bestScored_ne_none _ _ hb
    have htk : ps.take 10 ≠ [] := by
      apply List.ne_nil_of_length_pos
      rw [List.length_take]
      omega
    simpa using htk
  | some best =>
    rw [hb] at hp
    simp only [Option.some_inj] at hp
    have hmem := bestScored_mem _ _ hb
    obtain ⟨q, hq, hqe⟩ := List.mem_map.mp hmem
    have : q = p := by rw [← hp, ← hqe]
    exact this ▸ hq

/-! ## Claim C9: deterministic first-seen selection -/

/-- Claim C9: for a fixed candidate sequence, preferences and slot
budget, the selection of `_ai_select_best_product` is fully determined:
it is the earliest candidate (in iteration order, within the scored
first ten) attaining the maximal score, so a rerun returns the same
product and ties are broken by first-seen order (Python list sort is
stable). -/
theorem aiSelectBestProduct_deterministic_first_seen (ps : List Product)
    (slot : SlotInfo) (prefs : Preferences) (b : ℚ)
    (hlen : 1 < ps.length) :
    ∃ p, aiSelectBestProduct ps slot prefs b = some p ∧
      ∃ i, ∃ hi : i < (ps.take 10).length,
        (ps.take 10).get ⟨i, hi⟩ = p ∧
        (∀ j (hj : j < (ps.take 10).length),
          score prefs slot b ((ps.take 10).get ⟨j, hj⟩) ≤ score prefs slot b p) ∧
        (∀ j (hj : j < (ps.take 10).length), j < i →
          score prefs slot b ((ps.take 10).get ⟨j, hj⟩) < score prefs slot b p) := by
  have hlen1 : ps.length ≠ 1 := by omega
  have hmaplen : ((ps.take 10).map fun q => (q, score prefs slot b q)).length
      = (ps.take 10).length := List.length_map _ _
  have htk : (ps.take 10) ≠ [] := by
    apply List.ne_nil_of_length_pos
    rw [List.length_take]
    omega
  have hne : ((ps.take 10).map fun q => (q, score prefs slot b q)) ≠ [] := by
    simpa using htk
  cases hb : bestScored ((ps.take 10).map fun q => (q, score prefs slot b q)) with
  | none => exact absurd hb (bestScored_ne_none _ hne)
  | some best =>
    obtain ⟨i, hi, hget, hmax, hfirst⟩ := bestScored_spec _ _ hb
    have hi' : i < (ps.take 10).length := hmaplen ▸ hi
    have hgeti :
        ((ps.take 10).map fun q => (q, score prefs slot b q)).get ⟨i, hi⟩
          = ((ps.take 10).get ⟨i, hi'⟩, score prefs slot b ((ps.take 10).get ⟨i, hi'⟩)) :=
      List.get_map _
    have hbest1 : best.1 = (ps.take 10).get ⟨i, hi'⟩ := by
      rw [hgeti] at hget
      rw [← hget]
    have hbest2 : best.2 = score prefs slot b best.1 := by
      rw [← hget, hgeti]
    refine ⟨best.1, ?_, i, hi', hbest1.symm, ?_, ?_⟩
    · simp only [aiSelectBestProduct, hlen1, ite_false, hb]
    · intro j hj
      have hj' : j < ((ps.take 10).map fun q => (q, score prefs slot b q)).length :=
        hmaplen ▸ hj
      have := hmax j hj'
      rw [List.get_map] at this
      simpa [← hbest2] using this
    · intro j hj hji
      have hj' : j < ((ps.take 10).map fun q => (q, score prefs slot b q)).length :=
        hmaplen ▸ hj
      have := hfirst j hj' hji
      rw [List.get_map] at this
      simpa [← hbest2] using this

/-! ## Claim C8: overpriced products are never selected -/

theorem condFilter_subset (l : List Product) (field : Product → String)
    (preferred : Option String) (p : Product)
    (hp : p ∈ condFilter l field preferred) : p ∈ l := by
  cases preferred with
  | none => simpa [condFilter] using hp
  | some v =>
    simp only [condFilter] at hp
    by_cases h : l.any (fun q => field q = v)
    · rw [if_pos h] at hp
      exact List.mem_of_mem_filter hp
    · rwa [if_neg h] at hp

/-- Any product returned by `_recommend_products_for_slot` passed the
availability filter and the budget filter
`price <= max_unit_price * 1.5`. -/
theorem recommendProductsForSlot_filters (catalogForCategory : List Product)
    (slot : SlotInfo) (prefs : Preferences) (b : ℚ) (p : Product)
    (hp : recommendProductsForSlot catalogForCategory slot prefs b = some p) :
    p.is_available = true ∧ p.price ≤ (b / (slotQty slot : ℚ)) * (3/2) := by
  simp only [recommendProductsForSlot] at hp
  split at hp
  case isTrue h =>
    have hmem3 := aiSelectBestProduct_mem _ _ _ _ _ hp
    have hmem2 := condFilter_subset _ _ _ _ hmem3
    have hmem1 := condFilter_subset _ _ _ _ hmem2
    have hprice := List.of_mem_filter hmem1
    have hmem0 := List.mem_of_mem_filter hmem1
    have havail := List.of_mem_filter hmem0
    exact ⟨by simpa using havail, by simpa using hprice⟩
  case isFalse h => exact absurd hp (by simp)

/-- Claim C8: when the candidate set for a slot contains a product
priced at 200 percent of the slot's `max_unit_price` and a
same-category product priced at 85 percent of it, otherwise equal on
style, room type, availability and rating, the selection never returns
the 200-percent product: it is removed by the budget filter
`price <= max_unit_price * 1.5` before scoring. -/
theorem recommend_never_selects_overpriced
    (catalogForCategory : List Product) (slot : SlotInfo)
    (prefs : Preferences) (b : ℚ) (pExp pCheap : Product)
    (hq : 1 ≤ slotQty slot) (hb : 0 < b)
    (hexp : pExp ∈ catalogForCategory) (hcheap : pCheap ∈ catalogForCategory)
    (hpe : pExp.price = 2 * (b / (slotQty slot : ℚ)))
    (hpc : pCheap.price = (17/20) * (b / (slotQty slot : ℚ)))
    (hcat : pExp.category = pCheap.category)
    (hst : pExp.style = pCheap.style)
    (hrt : pExp.room_type = pCheap.room_type)
    (hav : pExp.is_available = pCheap.is_available)
    (hrtg : pExp.rating = pCheap.rating) :
    recommendProductsForSlot catalogForCategory slot prefs b ≠ some pExp := by
  intro hsel
  obtain ⟨_, hprice⟩ := recommendProductsForSlot_filters _ _ _ _ _ hsel
  have hqpos : (0 : ℚ) < (slotQty slot : ℚ) := by
    exact_mod_cast Nat.lt_of_lt_of_le Nat.zero_lt_one hq
  have hmu : 0 < b / (slotQty slot : ℚ) := div_pos hb hqpos
  rw [hpe] at hprice
  nlinarith [hmu, hprice]

/-- Witness for C8 at a concrete catalog: a 200-dollar product against
an 85-dollar product for a slot of quantity 1 and budget 100. -/
theorem recommend_never_selects_overpriced_witness :
    (1 ≤ slotQty ⟨"bar_stools", some "Seating", some false, some 1, some 15⟩
      ∧ (0:ℚ) < 100
      ∧ (⟨"Lux Stool", "Seating", "modern", "steel", "kitchen", 200, true, none⟩ : Product).price
          = 2 * ((100:ℚ) / (slotQty ⟨"bar_stools", some "Seating", some false, some 1, some 15⟩ : ℚ))
      ∧ (⟨"Eco Stool", "Seating", "modern", "steel", "kitchen", 85, true, none⟩ : Product).price
          = (17/20) * ((100:ℚ) / (slotQty ⟨"bar_stools", some "Seating", some false, some 1, some 15⟩ : ℚ)))
    ∧ recommendProductsForSlot
        [⟨"Lux Stool", "Seating", "modern", "steel", "kitchen", 200, true, none⟩,
         ⟨"Eco Stool", "Seating", "modern", "steel", "kitchen", 85, true, none⟩]
        ⟨"bar_stools", some "Seating", some false, some 1, some 15⟩
        ⟨none, none, none⟩ 100
      ≠ some ⟨"Lux Stool", "Seating", "modern", "steel", "kitchen", 200, true, none⟩ :=
  ⟨⟨by norm_num [slotQty], by norm_num, by norm_num [slotQty], by norm_num [slotQty]⟩,
    recommend_never_selects_overpriced _ _ _ _ _
      ⟨"Eco Stool", "Seating", "modern", "steel", "kitchen", 85, true, none⟩
      (by norm_num [slotQty]) (by norm_num)
      (by simp) (by simp)
      (by norm_num [slotQty]) (by norm_num [slotQty])
      rfl rfl rfl rfl rfl⟩

/-! ## Claim C7: material plays no role in scoring -/

/-- Counterexample for C7: two candidates identical except for
material, one matching the preferred material string, receive the same
score; the claimed +2 material contribution does not exist in
`_ai_select_best_product`. -/
theorem score_material_counterexample :
    (⟨some "modern", some "kitchen", some "oak"⟩ : Preferences).material = some "oak"
    ∧ (⟨"Cabinet A", "Storage", "modern", "oak", "kitchen", 80, true, none⟩ : Product).material = "oak"
    ∧ (⟨"Cabinet A", "Storage", "modern", "steel", "kitchen", 80, true, none⟩ : Product).material = "steel"
    ∧ score ⟨some "modern", some "kitchen", some "oak"⟩
        ⟨"kitchen_cabinet", some "Storage", some true, some 1, some 40⟩ 100
        ⟨"Cabinet A", "Storage", "modern", "oak", "kitchen", 80, true, none⟩
      = score ⟨some "modern", some "kitchen", some "oak"⟩
          ⟨"kitchen_cabinet", some "Storage", some true, some 1, some 40⟩ 100
          ⟨"Cabinet A", "Storage", "modern", "steel", "kitchen", 80, true, none⟩
    ∧ ¬ (score ⟨some "modern", some "kitchen", some "oak"⟩
          ⟨"kitchen_cabinet", some "Storage", some true, some 1, some 40⟩ 100
          ⟨"Cabinet A", "Storage", "modern", "oak", "kitchen", 80, true, none⟩
        = score ⟨some "modern", some "kitchen", some "oak"⟩
            ⟨"kitchen_cabinet", some "Storage", some true, some 1, some 40⟩ 100
            ⟨"Cabinet A", "Storage", "modern", "steel", "kitchen", 80, true, none⟩ + 2) := by
  refine ⟨rfl, rfl, rfl, rfl, ?_⟩
  norm_num [score, priceScore, ratingScore, slotQty]

/-- Claim C7 as amended: the score of `_ai_select_best_product` is
computed from style, room type, price ratio, availability and the
(absent) rating only; it is invariant under any change of the
product's material and of the preferred material string, so no +2
material contribution exists. -/
theorem score_ignores_material (prefs : Preferences) (slot : SlotInfo)
    (b : ℚ) (p : Product) (m pm : String) :
    score prefs slot b { p with material := m } = score prefs slot b p
    ∧ score { prefs with material := some pm } slot b p = score prefs slot b p :=
  ⟨rfl, rfl⟩

/-! ## Concrete fixtures for scorer witnesses -/

/-- A low-scoring candidate: wrong style and room type, unavailable,
zero price. -/
def wLow (nm : String) : Product :=
  ⟨nm, "Seating", "traditional", "wood", "bedroom", 0, false, none⟩

/-- A high-scoring candidate: style and room-type match, in the target
price band, available. -/
def wHigh : Product := ⟨"High Stool", "Seating", "modern", "steel", "kitchen", 100, true, none⟩

/-- Eleven candidates: ten low scorers followed by the high scorer in
position eleven. -/
def wCandidates : List Product :=
  [wLow "L1", wLow "L2", wLow "L3", wLow "L4", wLow "L5",
   wLow "L6", wLow "L7", wLow "L8", wLow "L9", wLow "L10", wHigh]

def wSlot : SlotInfo := ⟨"bar_stools", some "Seating", some false, some 1, some 15⟩

def wPrefs : Preferences := ⟨some "modern", some "kitchen", none⟩

/-- Witness for C10: with eleven candidates whose eleventh strictly
out-scores every other, the scorer still returns the first of the ten
scored candidates, which lies in the first ten. -/
theorem aiSelectBestProduct_within_first_ten_witness :
    (1 < wCandidates.length)
    ∧ aiSelectBestProduct wCandidates wSlot wPrefs 100 = some (wLow "L1")
    ∧ wLow "L1" ∈ wCandidates.take 10
    ∧ score wPrefs wSlot 100 (wLow "L1") < score wPrefs wSlot 100 wHigh := by
  have hEval : aiSelectBestProduct wCandidates wSlot wPrefs 100 = some (wLow "L1") := by
    norm_num [aiSelectBestProduct, wCandidates, wLow, wHigh, bestScored, score,
      priceScore, ratingScore, slotQty, wSlot, wPrefs]
  refine ⟨by norm_num [wCandidates], hEval, ?_, ?_⟩
  · exact aiSelectBestProduct_within_first_ten wCandidates wSlot wPrefs 100
      (wLow "L1") (by norm_num [wCandidates]) hEval
  · simp only [score, priceScore, ratingScore, slotQty, wSlot, wPrefs, wLow, wHigh]
    simp +decide
    norm_num

/-- Witness for C9 on a two-candidate tie: the characterization applies
and pins the result to the earliest maximal-score candidate. -/
theorem aiSelectBestProduct_deterministic_first_seen_witness :
    (1 < ([wLow "L1", wLow "L2"] : List Product).length)
    ∧ ∃ p, aiSelectBestProduct [wLow "L1", wLow "L2"] wSlot wPrefs 100 = some p ∧
      ∃ i, ∃ hi : i < (([wLow "L1", wLow "L2"] : List Product).take 10).length,
        (([wLow "L1", wLow "L2"] : List Product).take 10).get ⟨i, hi⟩ = p ∧
        (∀ j (hj : j < (([wLow "L1", wLow "L2"] : List Product).take 10).length),
          score wPrefs wSlot 100 ((([wLow "L1", wLow "L2"] : List Product).take 10).get ⟨j, hj⟩)
            ≤ score wPrefs wSlot 100 p) ∧
        (∀ j (hj : j < (([wLow "L1", wLow "L2"] : List Product).take 10).length), j < i →
          score wPrefs wSlot 100 ((([wLow "L1", wLow "L2"] : List Product).take 10).get ⟨j, hj⟩)
            < score wPrefs wSlot 100 p) :=
  ⟨by norm_num,
    aiSelectBestProduct_deterministic_first_seen [wLow "L1", wLow "L2"] wSlot wPrefs 100
      (by norm_num)⟩

/-! ## Pipeline shape lemmas -/

theorem createBudgetMaximizingProduct_slotName (s : SlotInfo) (b : ℚ) :
    (createBudgetMaximizingProduct s b).slot_name = s.name := rfl

theorem createBudgetMaximizingProduct_quantity (s : SlotInfo) (b : ℚ) :
    (createBudgetMaximizingProduct s b).quantity = slotQty s := rfl

theorem fillSlot_slotName (catalog : String → List Product)
    (prefs : Preferences) (s : SlotInfo) (b : ℚ) :
    (fillSlot catalog prefs s b).slot_name = s.name := by
  unfold fillSlot
  cases recommendProductsForSlot (catalog s.name) s prefs b with
  | none => rfl
  | some p =>
    dsimp only
    split
    · rfl
    · rfl

theorem fillSlot_quantity (catalog : String → List Product)
    (prefs : Preferences) (s : SlotInfo) (b : ℚ) :
    (fillSlot catalog prefs s b).quantity = slotQty s := by
  unfold fillSlot
  cases recommendProductsForSlot (catalog s.name) s prefs b with
  | none => rfl
  | some p =>
    dsimp only
    split
    · rfl
    · rfl

theorem firstPass_map_slotName (catalog : String → List Product)
    (prefs : Preferences) (slots : List SlotInfo) (bs : List ℚ)
    (hlen : slots.length = bs.length) :
    (((slots.zip bs).map fun sb => fillSlot catalog prefs sb.1 sb.2).map
      Selection.slot_name) = slots.map SlotInfo.name := by
  induction slots generalizing bs with
  | nil => simp
  | cons s slots ih =>
    cases bs with
    | nil => simp at hlen
    | cons b bs =>
      simp only [List.zip_cons_cons, List.map_cons]
      rw [fillSlot_slotName, ih bs (by simpa using hlen)]

theorem redistributeRemainingBudget_map_slotName (sels : List Selection)
    (remaining : ℚ) :
    ((redistributeRemainingBudget sels remaining).map Selection.slot_name)
      = sels.map Selection.slot_name := by
  unfold redistributeRemainingBudget
  split
  · rfl
  · simp [List.map_map]

theorem scaleDownToBudget_map_slotName (sels : List Selection) (target : ℚ) :
    ((scaleDownToBudget sels target).map Selection.slot_name)
      = sels.map Selection.slot_name := by
  unfold scaleDownToBudget
  split
  · rfl
  · simp [List.map_map]

theorem reconcile_map_slotName (sels : List Selection) (mb : ℚ) :
    ((reconcile sels mb).map Selection.slot_name)
      = sels.map Selection.slot_name := by
  unfold reconcile
  dsimp only
  split
  · exact redistributeRemainingBudget_map_slotName _ _
  · split
    · exact scaleDownToBudget_map_slotName _ _
    · rfl

theorem slotBudgets_length (slots : List SlotInfo) (mb : ℚ)
    (budgets : List (String × ℚ))
    (hsb : slotBudgets slots mb = some budgets) :
    budgets.length = slots.length := by
  unfold slotBudgets at hsb
  split at hsb
  · split at hsb
    · simp only [Option.some_inj] at hsb
      subst hsb
      simp_all
    · split at hsb
      · exact absurd hsb (by simp)
      · simp only [Option.some_inj] at hsb
        subst hsb
        simp
  · simp only [Option.some_inj] at hsb
    subst hsb
    simp

/-- When the allocation step succeeds, `_generate_optimized_products`
returns the reconciled first-pass selections. -/
theorem generateOptimizedProducts_eq (catalog : String → List Product)
    (slots : List SlotInfo) (prefs : Preferences) (mb : ℚ)
    (budgets : List (String × ℚ))
    (hsb : slotBudgets slots mb = some budgets) :
    generateOptimizedProducts catalog slots prefs mb
      = some (reconcile ((slots.zip (budgets.map Prod.snd)).map
          fun sb => fillSlot catalog prefs sb.1 sb.2) mb) := by
  unfold generateOptimizedProducts
  rw [hsb]

/-! ## Claim C2: full slot coverage -/

/-- Claim C2: whenever `_generate_optimized_products` returns a result
for a template whose slot names are distinct (guaranteed by the
name-keyed dict construction), every slot has exactly one selection
carrying its name: no slot is unfilled, none is duplicated. -/
theorem generateOptimizedProducts_slot_coverage
    (catalog : String → List Product) (slots : List SlotInfo)
    (prefs : Preferences) (mb : ℚ) (sels : List Selection)
    (hnd : (slots.map SlotInfo.name).Nodup)
    (h : generateOptimizedProducts catalog slots prefs mb = some sels)
    (s : SlotInfo) (hs : s ∈ slots) :
    (sels.map Selection.slot_name).count s.name = 1 := by
  unfold generateOptimizedProducts at h
  cases hsb : slotBudgets slots mb with
  | none =>
    rw [hsb] at h
    exact absurd h (by simp)
  | some budgets =>
    rw [hsb] at h
    simp only [Option.some_inj] at h
    subst h
    have hlen : slots.length = (budgets.map Prod.snd).length := by
      rw [List.length_map]
      exact (slotBudgets_length slots mb budgets hsb).symm
    rw [reconcile_map_slotName, firstPass_map_slotName _ _ _ _ hlen]
    exact List.count_eq_one_of_mem hnd (List.mem_map_of_mem _ hs)

/-- Witness for C2: the Modern Kitchen template with an empty catalog;
the slot kitchen_cabinet is covered exactly once. -/
theorem generateOptimizedProducts_slot_coverage_witness :
    ((modernKitchenSlots.map SlotInfo.name).Nodup
      ∧ ⟨"kitchen_cabinet", some "Storage", some true, some 1, some 40⟩ ∈ modernKitchenSlots)
    ∧ (((reconcile ((modernKitchenSlots.zip
          (([("kitchen_cabinet", (2720:ℚ)), ("kitchen_island", 1700),
             ("bar_stools", 1020), ("pendant_lights", 816),
             ("kitchen_appliances", 544)] : List (String × ℚ)).map Prod.snd)).map
            fun sb => fillSlot (fun _ => []) ⟨none, none, none⟩ sb.1 sb.2) 6800).map
          Selection.slot_name).count "kitchen_cabinet") = 1 := by
  have hsb : slotBudgets modernKitchenSlots 6800 = some
      [("kitchen_cabinet", 2720), ("kitchen_island", 1700),
       ("bar_stools", 1020), ("pendant_lights", 816),
       ("kitchen_appliances", 544)] := by
    norm_num [slotBudgets, totalPercentage, modernKitchenSlots, slotPct]
  refine ⟨⟨by simp [modernKitchenSlots], by simp [modernKitchenSlots]⟩, ?_⟩
  exact generateOptimizedProducts_slot_coverage (fun _ => []) modernKitchenSlots
    ⟨none, none, none⟩ 6800 _ (by simp [modernKitchenSlots])
    (generateOptimizedProducts_eq _ _ _ _ _ hsb)
    ⟨"kitchen_cabinet", some "Storage", some true, some 1, some 40⟩
    (by simp [modernKitchenSlots])

/-! ## Claim C4: price consistency -/

/-- Rounding a product after multiplying differs from multiplying the
rounded factor by at most (q+1)/200. -/
theorem round2_mul_nat (u : ℚ) (q : ℕ) :
    |round2 (u * q) - round2 u * q| ≤ ((q : ℚ) + 1) / 200 := by
  have h1 := round2_sub_abs (u * q)
  have h2 := round2_sub_abs u
  have h3 : |round2 u * q - u * q| ≤ (q : ℚ) / 200 := by
    rw [show round2 u * (q:ℚ) - u * q = (round2 u - u) * q by ring, abs_mul]
    rw [abs_of_nonneg (by positivity : (0:ℚ) ≤ (q:ℚ))]
    calc |round2 u - u| * (q:ℚ) ≤ (1/200) * (q:ℚ) :=
          mul_le_mul_of_nonneg_right h2 (by positivity)
      _ = (q:ℚ)/200 := by ring
  calc |round2 (u * q) - round2 u * q|
      = |(round2 (u * q) - u * q) - (round2 u * q - u * q)| := by ring_nf
    _ ≤ |round2 (u * q) - u * q| + |round2 u * q - u * q| := abs_sub _ _
    _ ≤ 1/200 + (q : ℚ)/200 := add_le_add h1 h3
    _ = ((q : ℚ) + 1)/200 := by ring

/-- The synthesizer stores `round(u, 2)` as unit price and
`round(u * quantity, 2)` of the same unrounded `u` as total price. -/
theorem createBudgetMaximizingProduct_prices (s : SlotInfo) (b : ℚ) :
    ∃ u, (createBudgetMaximizingProduct s b).unit_price = round2 u
      ∧ (createBudgetMaximizingProduct s b).total_price
          = round2 (u * (slotQty s : ℚ)) :=
  ⟨_, rfl, rfl⟩

theorem createBudgetMaximizingProduct_consistency (s : SlotInfo) (b : ℚ) :
    |(createBudgetMaximizingProduct s b).total_price
      - (createBudgetMaximizingProduct s b).unit_price
          * ((createBudgetMaximizingProduct s b).quantity : ℚ)|
      ≤ (((createBudgetMaximizingProduct s b).quantity : ℚ) + 1) / 200 := by
  obtain ⟨u, hu, ht⟩ := createBudgetMaximizingProduct_prices s b
  rw [hu, ht, createBudgetMaximizingProduct_quantity]
  exact round2_mul_nat u (slotQty s)

theorem fillSlot_consistency (catalog : String → List Product)
    (prefs : Preferences) (s : SlotInfo) (b : ℚ) :
    |(fillSlot catalog prefs s b).total_price
      - (fillSlot catalog prefs s b).unit_price
          * ((fillSlot catalog prefs s b).quantity : ℚ)|
      ≤ (((fillSlot catalog prefs s b).quantity : ℚ) + 1) / 200 := by
  unfold fillSlot
  cases recommendProductsForSlot (catalog s.name) s prefs b with
  | none => exact createBudgetMaximizingProduct_consistency s b
  | some p =>
    dsimp only
    split
    · simp only
      rw [sub_self, abs_zero]
      positivity
    · exact createBudgetMaximizingProduct_consistency s b

theorem redistributeRemainingBudget_consistency (sels : List Selection)
    (remaining : ℚ)
    (hin : ∀ s ∈ sels, 1 ≤ s.quantity ∧
      |s.total_price - s.unit_price * (s.quantity : ℚ)|
        ≤ ((s.quantity : ℚ) + 1) / 200) :
    ∀ s ∈ redistributeRemainingBudget sels remaining, 1 ≤ s.quantity ∧
      |s.total_price - s.unit_price * (s.quantity : ℚ)|
        ≤ ((s.quantity : ℚ) + 1) / 200 := by
  unfold redistributeRemainingBudget
  split
  · exact hin
  · intro s' hs'
    obtain ⟨s, hs, rfl⟩ := List.mem_map.mp hs'
    refine ⟨(hin s hs).1, ?_⟩
    simp only
    exact round2_mul_nat _ s.quantity

theorem scaleDownToBudget_consistency (sels : List Selection) (target : ℚ)
    (hin : ∀ s ∈ sels, 1 ≤ s.quantity ∧
      |s.total_price - s.unit_price * (s.quantity : ℚ)|
        ≤ ((s.quantity : ℚ) + 1) / 200) :
    ∀ s ∈ scaleDownToBudget sels target, 1 ≤ s.quantity ∧
      |s.total_price - s.unit_price * (s.quantity : ℚ)|
        ≤ ((s.quantity : ℚ) + 1) / 200 := by
  unfold scaleDownToBudget
  split
  · exact hin
  · intro s' hs'
    obtain ⟨s, hs, rfl⟩ := List.mem_map.mp hs'
    refine ⟨(hin s hs).1, ?_⟩
    simp only
    have hq1 : 1 ≤ s.quantity := (hin s hs).1
    have hqne : (s.quantity : ℚ) ≠ 0 := by
      have : 0 < (s.quantity : ℚ) := by exact_mod_cast Nat.lt_of_lt_of_le Nat.zero_lt_one hq1
      exact ne_of_gt this
    set nt := s.total_price * (if matCost sels > 0 then target / matCost sels else 1) with hnt
    have hsplit : nt = (nt / (s.quantity : ℚ)) * (s.quantity : ℚ) := by
      field_simp
    calc |round2 nt - round2 (nt / (s.quantity : ℚ)) * (s.quantity : ℚ)|
        = |round2 ((nt / (s.quantity : ℚ)) * (s.quantity : ℚ))
            - round2 (nt / (s.quantity : ℚ)) * (s.quantity : ℚ)| := by rw [← hsplit]
      _ ≤ ((s.quantity : ℚ) + 1) / 200 := round2_mul_nat _ s.quantity

theorem reconcile_consistency (sels : List Selection) (mb : ℚ)
    (hin : ∀ s ∈ sels, 1 ≤ s.quantity ∧
      |s.total_price - s.unit_price * (s.quantity : ℚ)|
        ≤ ((s.quantity : ℚ) + 1) / 200) :
    ∀ s ∈ reconcile sels mb, 1 ≤ s.quantity ∧
      |s.total_price - s.unit_price * (s.quantity : ℚ)|
        ≤ ((s.quantity : ℚ) + 1) / 200 := by
  unfold reconcile
  dsimp only
  split
  · exact redistributeRemainingBudget_consistency sels _ hin
  · split
    · exact scaleDownToBudget_consistency sels mb hin
    · exact hin

/-- Claim C4 as amended: for every selection of a completed design run
(synthesized or real at creation, and after redistribution or
scale-down), the stored `total_price` is the 2-decimal rounding of the
unrounded unit price times quantity; consequently it differs from
`unit_price * quantity` (with `unit_price` the stored rounded value) by
at most 0.005*(quantity+1).  Exact equality
`total_price = round(unit_price * quantity, 2)` holds when
quantity = 1 but can fail for larger quantities. -/
theorem generateOptimizedProducts_price_consistency
    (catalog : String → List Product) (slots : List SlotInfo)
    (prefs : Preferences) (mb : ℚ) (sels : List Selection)
    (hq : ∀ s ∈ slots, 1 ≤ slotQty s)
    (h : generateOptimizedProducts catalog slots prefs mb = some sels) :
    ∀ sel ∈ sels, 1 ≤ sel.quantity ∧
      |sel.total_price - sel.unit_price * (sel.quantity : ℚ)|
        ≤ ((sel.quantity : ℚ) + 1) / 200 := by
  unfold generateOptimizedProducts at h
  cases hsb : slotBudgets slots mb with
  | none =>
    rw [hsb] at h
    exact absurd h (by simp)
  | some budgets =>
    rw [hsb] at h
    simp only [Option.some_inj] at h
    subst h
    apply reconcile_consistency
    intro sel hsel
    obtain ⟨sb, hsb', rfl⟩ := List.mem_map.mp hsel
    have hslot : sb.1 ∈ slots := (List.of_mem_zip (by simpa using hsb')).1
    refine ⟨?_, fillSlot_consistency _ _ _ _⟩
    rw [fillSlot_quantity]
    exact hq sb.1 hslot

/-- The dining_chairs slot of the Traditional Kitchen template
(quantity 4, 15 percent), whose name is absent from the
`premium_products` table. -/
def diningChairsSlot : SlotInfo :=
  ⟨"dining_chairs", some "Seating", some false, some 4, some 15⟩

/-- Counterexample for C4: in a Traditional Kitchen run with total
budget 1234 (material budget 1048.90), the dining_chairs slot budget is
157.335; the synthesized selection stores unit_price 36.19 and
total_price 144.75, but round(36.19 * 4, 2) = 144.76, so
`total_price = round(unit_price * quantity, 2)` fails for the stored
(rounded) unit price. -/
theorem price_consistency_counterexample :
    materialBudget 1234 = 10489/10
    ∧ slotBudgets traditionalKitchenSlots (10489/10) = some
        [("wooden_cabinets", 94401/200), ("dining_table", 10489/50),
         ("dining_chairs", 31467/200), ("chandelier", 31467/250),
         ("kitchen_appliances", 10489/125)]
    ∧ (createBudgetMaximizingProduct diningChairsSlot (31467/200)).quantity = 4
    ∧ (createBudgetMaximizingProduct diningChairsSlot (31467/200)).unit_price = 3619/100
    ∧ (createBudgetMaximizingProduct diningChairsSlot (31467/200)).total_price = 579/4
    ∧ (createBudgetMaximizingProduct diningChairsSlot (31467/200)).total_price
        ≠ round2 ((createBudgetMaximizingProduct diningChairsSlot (31467/200)).unit_price
            * ((createBudgetMaximizingProduct diningChairsSlot (31467/200)).quantity : ℚ)) := by
  have hq : (createBudgetMaximizingProduct diningChairsSlot (31467/200)).quantity = 4 := rfl
  have hu : (createBudgetMaximizingProduct diningChairsSlot (31467/200)).unit_price
      = 3619/100 := by
    simp +decide [createBudgetMaximizingProduct, premiumProducts, slotQty, diningChairsSlot]
    norm_num [round2, round_eq]
  have ht : (createBudgetMaximizingProduct diningChairsSlot (31467/200)).total_price
      = 579/4 := by
    simp +decide [createBudgetMaximizingProduct, premiumProducts, slotQty, diningChairsSlot]
    norm_num [round2, round_eq]
  refine ⟨by norm_num [materialBudget], ?_, hq, hu, ht, ?_⟩
  · norm_num [slotBudgets, totalPercentage, traditionalKitchenSlots, slotPct]
  · rw [hq, hu, ht]
    norm_num [round2, round_eq]

/-- Witness for the amended C4 on a concrete Modern Kitchen run with an
empty catalog. -/
theorem generateOptimizedProducts_price_consistency_witness :
    (∀ s ∈ modernKitchenSlots, 1 ≤ slotQty s)
    ∧ ∀ sel ∈ reconcile ((modernKitchenSlots.zip
          (([("kitchen_cabinet", (2720:ℚ)), ("kitchen_island", 1700),
             ("bar_stools", 1020), ("pendant_lights", 816),
             ("kitchen_appliances", 544)] : List (String × ℚ)).map Prod.snd)).map
            fun sb => fillSlot (fun _ => []) ⟨none, none, none⟩ sb.1 sb.2) 6800,
        1 ≤ sel.quantity ∧
          |sel.total_price - sel.unit_price * (sel.quantity : ℚ)|
            ≤ ((sel.quantity : ℚ) + 1) / 200 := by
  have hsb : slotBudgets modernKitchenSlots 6800 = some
      [("kitchen_cabinet", 2720), ("kitchen_island", 1700),
       ("bar_stools", 1020), ("pendant_lights", 816),
       ("kitchen_appliances", 544)] := by
    norm_num [slotBudgets, totalPercentage, modernKitchenSlots, slotPct]
  refine ⟨by simp [modernKitchenSlots, slotQty], ?_⟩
  exact generateOptimizedProducts_price_consistency (fun _ => []) modernKitchenSlots
    ⟨none, none, none⟩ 6800 _ (by simp [modernKitchenSlots, slotQty])
    (generateOptimizedProducts_eq _ _ _ _ _ hsb)

/-! ## Claim C1: budget convergence of the reconciliation pass -/

/-- Total 2-decimal rounding slack of a selection list: each selection
contributes at most (quantity+2)/200 of rounding drift during
reconciliation. -/
def roundSlack (sels : List Selection) : ℚ :=
  (sels.map fun s => ((s.quantity : ℚ) + 2) / 200).sum

theorem roundSlack_nonneg (sels : List Selection) : 0 ≤ roundSlack sels := by
  apply List.sum_nonneg
  intro x hx
  obtain ⟨s, _, rfl⟩ := List.mem_map.mp hx
  positivity

theorem list_sum_map_mul_right {α : Type} (l : List α) (c : ℚ) (f : α → ℚ) :
    (l.map (fun a => f a * c)).sum = (l.map f).sum * c := by
  induction l with
  | nil => simp
  | cons a l ih => simp [ih]; ring

/-- After `_redistribute_remaining_budget` with a positive remaining
amount and positive current total, the new material cost equals the old
cost plus the remaining amount, up to the per-item rounding slack. -/
theorem redistribute_matCost_bound (sels : List Selection) (remaining : ℚ)
    (hne : sels ≠ []) (hrem : 0 < remaining) (hT : 0 < matCost sels)
    (hq : ∀ s ∈ sels, 1 ≤ s.quantity)
    (hwf : ∀ s ∈ sels, |s.unit_price * (s.quantity : ℚ) - s.total_price|
      ≤ ((s.quantity : ℚ) + 1) / 200) :
    |matCost (redistributeRemainingBudget sels remaining)
      - (matCost sels + remaining)| ≤ roundSlack sels := by
  have hguard : ¬ (sels = [] ∨ remaining ≤ 0) := by
    rintro (h | h)
    · exact hne h
    · exact absurd hrem (not_lt.mpr h)
  unfold redistributeRemainingBudget
  rw [if_neg hguard]
  dsimp only
  have hTne : matCost sels ≠ 0 := ne_of_gt hT
  have key : |(sels.map fun s => round2
        ((s.unit_price + remaining * (if matCost sels > 0 then s.total_price / matCost sels else 0) / (s.quantity : ℚ)) * (s.quantity : ℚ))).sum
      - (sels.map fun s => s.total_price + (remaining / matCost sels) * s.total_price).sum|
      ≤ (sels.map fun s => ((s.quantity : ℚ) + 2) / 200).sum := by
    apply list_sum_abs_le
    intro s hs
    have hq1 : 1 ≤ s.quantity := hq s hs
    have hqne : ((s.quantity : ℚ)) ≠ 0 := by
      have : 0 < (s.quantity : ℚ) := by exact_mod_cast Nat.lt_of_lt_of_le Nat.zero_lt_one hq1
      exact ne_of_gt this
    rw [if_pos hT]
    set nu := s.unit_price + remaining * (s.total_price / matCost sels) / (s.quantity : ℚ) with hnu
    have hexp : nu * (s.quantity : ℚ)
        = s.unit_price * (s.quantity : ℚ) + (remaining / matCost sels) * s.total_price := by
      rw [hnu]
      field_simp
      ring
    have h1 := round2_sub_abs (nu * (s.quantity : ℚ))
    have h2 := hwf s hs
    calc |round2 (nu * (s.quantity : ℚ))
          - (s.total_price + (remaining / matCost sels) * s.total_price)|
        = |(round2 (nu * (s.quantity : ℚ)) - nu * (s.quantity : ℚ))
            + (s.unit_price * (s.quantity : ℚ) - s.total_price)| := by
          rw [hexp]; ring_nf
      _ ≤ |round2 (nu * (s.quantity : ℚ)) - nu * (s.quantity : ℚ)|
            + |s.unit_price * (s.quantity : ℚ) - s.total_price| := abs_add _ _
      _ ≤ 1/200 + ((s.quantity : ℚ) + 1) / 200 := add_le_add h1 h2
      _ = ((s.quantity : ℚ) + 2) / 200 := by ring
  have hg : (sels.map fun s => s.total_price + (remaining / matCost sels) * s.total_price).sum
      = matCost sels + remaining := by
    rw [list_sum_map_add, list_sum_map_mul_left]
    rw [show (sels.map fun s => s.total_price).sum = matCost sels from rfl]
    field_simp
  rw [hg] at key
  have hshape : matCost (sels.map fun s =>
      { s with
        unit_price := round2 (s.unit_price + remaining * (if matCost sels > 0 then s.total_price / matCost sels else 0) / (s.quantity : ℚ))
        total_price := round2 ((s.unit_price + remaining * (if matCost sels > 0 then s.total_price / matCost sels else 0) / (s.quantity : ℚ)) * (s.quantity : ℚ))
        reasoning := s.reasoning ++ " Enhanced with premium upgrades to fully utilize your budget allocation." })
      = (sels.map fun s => round2
        ((s.unit_price + remaining * (if matCost sels > 0 then s.total_price / matCost sels else 0) / (s.quantity : ℚ)) * (s.quantity : ℚ))).sum := by
    simp only [matCost, List.map_map]
    rfl
  rw [hshape]
  exact key

/-- After `_scale_down_to_budget` with a positive current total, the
new material cost equals the target budget up to the per-item rounding
slack. -/
theorem scaleDown_matCost_bound (sels : List Selection) (target : ℚ)
    (hne : sels ≠ []) (hT : 0 < matCost sels) :
    |matCost (scaleDownToBudget sels target) - target| ≤ roundSlack sels := by
  unfold scaleDownToBudget
  rw [if_neg hne]
  dsimp only
  have hTne : matCost sels ≠ 0 := ne_of_gt hT
  have key : |(sels.map fun s => round2
        (s.total_price * (if matCost sels > 0 then target / matCost sels else 1))).sum
      - (sels.map fun s => s.total_price * (target / matCost sels)).sum|
      ≤ (sels.map fun s => ((s.quantity : ℚ) + 2) / 200).sum := by
    apply list_sum_abs_le
    intro s hs
    rw [if_pos hT]
    calc |round2 (s.total_price * (target / matCost sels))
          - s.total_price * (target / matCost sels)|
        ≤ 1/200 := round2_sub_abs _
      _ ≤ ((s.quantity : ℚ) + 2) / 200 := by
          have : (0:ℚ) ≤ (s.quantity : ℚ) := by positivity
          linarith
  have hg : (sels.map fun s => s.total_price * (target / matCost sels)).sum = target := by
    rw [list_sum_map_mul_right]
    rw [show (sels.map fun s => s.total_price).sum = matCost sels from rfl]
    field_simp
  rw [hg] at key
  have hshape : matCost (sels.map fun s =>
      { s with
        unit_price := round2 (s.total_price * (if matCost sels > 0 then target / matCost sels else 1) / (s.quantity : ℚ))
        total_price := round2 (s.total_price * (if matCost sels > 0 then target / matCost sels else 1)) })
      = (sels.map fun s => round2
        (s.total_price * (if matCost sels > 0 then target / matCost sels else 1))).sum := by
    simp only [matCost, List.map_map]
    rfl
  rw [hshape]
  exact key

/-- Claim C1 as amended: after the second pass of
`_generate_optimized_products`, for a positive material budget and
selections with positive total and consistent prices, the material cost
lies within [0.95, 1.02] x material_budget extended by the accumulated
2-decimal rounding slack (at most 0.005*(quantity+2) per selection) --
not within the claimed [0.98, 1.05] band: totals between 95 and 98
percent of the budget are left unchanged by design. -/
theorem reconcile_band (sels : List Selection) (mb : ℚ)
    (hne : sels ≠ []) (hmb : 0 < mb) (hT : 0 < matCost sels)
    (hq : ∀ s ∈ sels, 1 ≤ s.quantity)
    (hwf : ∀ s ∈ sels, |s.unit_price * (s.quantity : ℚ) - s.total_price|
      ≤ ((s.quantity : ℚ) + 1) / 200) :
    (19/20) * mb - roundSlack sels ≤ matCost (reconcile sels mb)
    ∧ matCost (reconcile sels mb) ≤ (51/50) * mb + roundSlack sels := by
  have hE := roundSlack_nonneg sels
  unfold reconcile
  dsimp only
  by_cases h1 : mb - matCost sels > mb * (5/100)
  · rw [if_pos h1]
    have hrem : 0 < mb - matCost sels := by nlinarith
    have hb := redistribute_matCost_bound sels (mb - matCost sels) hne hrem hT hq hwf
    rw [show matCost sels + (mb - matCost sels) = mb by ring] at hb
    have h2 := abs_sub_le_iff.mp hb
    constructor <;> nlinarith [h2.1, h2.2]
  · rw [if_neg h1]
    by_cases h2 : matCost sels > mb * (102/100)
    · rw [if_pos h2]
      have hb := scaleDown_matCost_bound sels mb hne hT
      have h3 := abs_sub_le_iff.mp hb
      constructor <;> nlinarith [h3.1, h3.2]
    · rw [if_neg h2]
      push_neg at h1 h2
      constructor <;> nlinarith

/-- A catalog whose only Storage product costs 96, i.e. 96 percent of
the slot budget below. -/
def c1Catalog : String → List Product := fun _ =>
  [⟨"Budget Cabinet", "Storage", "modern", "wood", "kitchen", 96, true, none⟩]

/-- A single slot holding 100 percent of the material budget. -/
def c1Slots : List SlotInfo :=
  [⟨"kitchen_cabinet", some "Storage", some true, some 1, some 100⟩]

/-- Counterexample for C1: a run whose slot budgets sum to the material
budget (100) and whose single accepted catalog selection costs 96.
Reconciliation leaves it unchanged (within 5 percent under, not 2
percent over), so material_cost is 96 = 0.96 x material_budget, below
the claimed lower bound 0.98 x material_budget. -/
theorem reconcile_band_counterexample :
    slotBudgets c1Slots 100 = some [("kitchen_cabinet", 100)]
    ∧ (generateOptimizedProducts c1Catalog c1Slots ⟨none, none, none⟩ 100).map matCost
        = some 96
    ∧ ¬ ((98 : ℚ) ≤ 96 ∧ (96 : ℚ) ≤ 105) := by
  refine ⟨?_, ?_, by norm_num⟩
  · norm_num [slotBudgets, totalPercentage, c1Slots, slotPct]
  · norm_num [generateOptimizedProducts, slotBudgets, totalPercentage, c1Slots, slotPct,
      c1Catalog, fillSlot, recommendProductsForSlot, condFilter, aiSelectBestProduct,
      slotQty, reconcile, redistributeRemainingBudget, scaleDownToBudget, matCost]

/-- Witness for the amended C1 at a concrete one-selection state 50
percent under budget (redistribution case). -/
theorem reconcile_band_witness :
    (([⟨none, 1, "kitchen_cabinet", "r", 50, 50⟩] : List Selection) ≠ []
      ∧ (0:ℚ) < 100
      ∧ 0 < matCost [⟨none, 1, "kitchen_cabinet", "r", 50, 50⟩]
      ∧ ∀ s ∈ ([⟨none, 1, "kitchen_cabinet", "r", 50, 50⟩] : List Selection),
          |s.unit_price * (s.quantity : ℚ) - s.total_price|
            ≤ ((s.quantity : ℚ) + 1) / 200)
    ∧ (19/20) * 100 - roundSlack [⟨none, 1, "kitchen_cabinet", "r", 50, 50⟩]
        ≤ matCost (reconcile [⟨none, 1, "kitchen_cabinet", "r", 50, 50⟩] 100)
    ∧ matCost (reconcile [⟨none, 1, "kitchen_cabinet", "r", 50, 50⟩] 100)
        ≤ (51/50) * 100 + roundSlack [⟨none, 1, "kitchen_cabinet", "r", 50, 50⟩] :=
  ⟨⟨by simp, by norm_num, by norm_num [matCost], by norm_num [matCost]⟩,
    reconcile_band [⟨none, 1, "kitchen_cabinet", "r", 50, 50⟩] 100
      (by simp) (by norm_num) (by norm_num [matCost])
      (by norm_num) (by norm_num [matCost])⟩

end DesignAI
